import Mathlib

/-!
Verification of the WT1 GitLab dashboard server.

The development shallowly embeds the server-side JavaScript:

* `src/middleware/authMiddleware.js` (`isAuthenticated`) as `isAuthenticatedThen`,
  with the JS expression `req.headers.authorization?.split(' ')[1]` embedded as
  `tokenFromHeader` over a character-level model `jsSplitSpace` of
  `String.prototype.split(' ')`;
* the `jsonwebtoken` library as an ideal message-authentication scheme: a token
  is a signed record `Jwt` whose signature field equals the MAC `sign secret
  payload exp` exactly when it was produced with the server secret, and wire
  tokens are strings via an injective executable codec (`encodeJwt` or
  `decodeJwt`);
* `src/controllers/homeController.js` (`home`, `logout`) as `home` and `logout`,
  with the upstream GitLab REST API abstracted as an oracle `Upstream` and
  `Promise.all` over `Array.prototype.map` as `promiseAll` (the composite
  rejects exactly when some element rejects, and preserves order);
* `src/controllers/authController.js` (`login`, `callback`) as `callback`,
  which also returns the list of outbound HTTP calls it performed;
* the routers (`homeRoutes.js`) as `homeRouter`;
* the concurrency structure of the aggregation pipeline as a small-step
  machine `Step` or `Run` over `PipeState`, emitting issue and completion
  events for the upstream calls.
-/

namespace WT1

/-- A GitLab user profile as embedded in the session JWT.  The server treats
the profile as opaque data; two representative fields suffice. -/
structure User where
  id : Nat
  username : String
deriving DecidableEq

/-- The JWT payload minted at `callback`: `{ user, accessToken }`. -/
structure JwtPayload where
  user : User
  accessToken : String
deriving DecidableEq

/-- An ideal MAC value: the model makes the signature carry exactly the signed
data and the secret, so that a signature verifies against `(secret, payload,
exp)` iff it was produced from them. -/
abbrev Sig := Nat × JwtPayload × Nat

/-- `sign secret payload exp` is the ideal MAC used by `jwt.sign` or
`jwt.verify`. -/
def sign (secret : Nat) (p : JwtPayload) (exp : Nat) : Sig :=
  (secret, p, exp)

/-- A decoded JWT: payload, expiry timestamp (seconds), signature. -/
structure Jwt where
  payload : JwtPayload
  exp : Nat
  sig : Sig
deriving DecidableEq

/-! ### Executable wire codec for JWTs

Real JWTs are base64url strings (in particular, space-free).  The model
serialises a `Jwt` to a nonempty string over the alphabet `{0, 1}` via a
`Nat.pair`-based Goedel numbering; strings that do not arise this way fail to
decode, which models malformed tokens (`jwt.verify` throwing). -/

/-- Injective numbering of strings: fold the character codes with
`Nat.pair`, shifted by one so the empty string is the only string encoded
as `0`. -/
def strToNat (s : String) : Nat :=
  s.data.foldr (fun c n => Nat.pair c.toNat n + 1) 0

/-- Inverse of the character-list part of `strToNat`. -/
def charsFromNat : Nat → Option (List Char)
  | 0 => some []
  | n + 1 =>
    (charsFromNat (Nat.unpair n).2).map (fun cs => Char.ofNat (Nat.unpair n).1 :: cs)
decreasing_by
  exact Nat.lt_succ_of_le (Nat.unpair_right_le n)

/-- Inverse of `strToNat`. -/
def strFromNat (n : Nat) : Option String :=
  (charsFromNat n).map fun cs => ⟨cs⟩

def userToNat (u : User) : Nat :=
  Nat.pair u.id (strToNat u.username)

def userFromNat (n : Nat) : Option User :=
  (strFromNat (Nat.unpair n).2).map fun uname => ⟨(Nat.unpair n).1, uname⟩

def payloadToNat (p : JwtPayload) : Nat :=
  Nat.pair (userToNat p.user) (strToNat p.accessToken)

def payloadFromNat (n : Nat) : Option JwtPayload := do
  let u ← userFromNat (Nat.unpair n).1
  let t ← strFromNat (Nat.unpair n).2
  pure ⟨u, t⟩

def sigToNat (s : Sig) : Nat :=
  Nat.pair s.1 (Nat.pair (payloadToNat s.2.1) s.2.2)

def sigFromNat (n : Nat) : Option Sig := do
  let p ← payloadFromNat (Nat.unpair (Nat.unpair n).2).1
  pure (⟨(Nat.unpair n).1, p, (Nat.unpair (Nat.unpair n).2).2⟩)

def jwtToNat (t : Jwt) : Nat :=
  Nat.pair (payloadToNat t.payload) (Nat.pair t.exp (sigToNat t.sig))

def jwtFromNat (n : Nat) : Option Jwt := do
  let p ← payloadFromNat (Nat.unpair n).1
  let s ← sigFromNat (Nat.unpair (Nat.unpair n).2).2
  pure ⟨p, (Nat.unpair (Nat.unpair n).2).1, s⟩

/-- Character for one bit. -/
def bitChar (n : Nat) : Char :=
  if n % 2 = 1 then '1' else '0'

/-- Little-endian binary digits of a number. -/
def natBitsRev : Nat → List Char
  | 0 => []
  | n + 1 => bitChar ((n + 1) % 2) :: natBitsRev ((n + 1) / 2)
decreasing_by
  exact Nat.div_lt_self (Nat.succ_pos n) (by decide)

/-- Value of a little-endian binary digit list. -/
def bitsRevVal : List Char → Nat
  | [] => 0
  | c :: cs => (if c = '1' then 1 else 0) + 2 * bitsRevVal cs

def isBitChar (c : Char) : Bool :=
  c = '0' || c = '1'

/-- Serialise a number as a nonempty binary string (the successor shift keeps
the string nonempty). -/
def encNat (n : Nat) : String :=
  ⟨natBitsRev (n + 1)⟩

/-- Parse a binary string back to a number; rejects strings that are not of
the form `encNat n`. -/
def decNat (s : String) : Option Nat :=
  if s.data.all isBitChar then
    match bitsRevVal s.data with
    | 0 => none
    | v + 1 => some v
  else none

/-- Wire form of a JWT. -/
def encodeJwt (t : Jwt) : String :=
  encNat (jwtToNat t)

/-- Parse a wire token; `none` models a malformed token on which `jwt.verify`
throws. -/
def decodeJwt (s : String) : Option Jwt :=
  (decNat s).bind jwtFromNat

/-! ### Codec roundtrip lemmas -/

theorem charsFromNat_foldr (cs : List Char) :
    charsFromNat (cs.foldr (fun c n => Nat.pair c.toNat n + 1) 0) = some cs := by
  induction cs with
  | nil => simp [charsFromNat]
  | cons c cs ih =>
    rw [List.foldr_cons, charsFromNat]
    simp [Nat.unpair_pair, ih, Char.ofNat_toNat]

theorem strFromNat_strToNat (s : String) : strFromNat (strToNat s) = some s := by
  cases s with
  | mk data =>
    rw [strToNat, strFromNat]
    simp [charsFromNat_foldr]

theorem userFromNat_userToNat (u : User) : userFromNat (userToNat u) = some u := by
  rw [userToNat, userFromNat]
  simp [Nat.unpair_pair, strFromNat_strToNat]

theorem payloadFromNat_payloadToNat (p : JwtPayload) :
    payloadFromNat (payloadToNat p) = some p := by
  rw [payloadToNat, payloadFromNat]
  simp [Nat.unpair_pair, userFromNat_userToNat, strFromNat_strToNat]

theorem sigFromNat_sigToNat (s : Sig) : sigFromNat (sigToNat s) = some s := by
  rw [sigToNat, sigFromNat]
  simp [Nat.unpair_pair, payloadFromNat_payloadToNat]

theorem jwtFromNat_jwtToNat (t : Jwt) : jwtFromNat (jwtToNat t) = some t := by
  rw [jwtToNat, jwtFromNat]
  simp [Nat.unpair_pair, payloadFromNat_payloadToNat, sigFromNat_sigToNat]

theorem bitsRevVal_natBitsRev (n : Nat) : bitsRevVal (natBitsRev n) = n := by
  induction n using Nat.strong_induction_on with
  | _ n ih =>
    match n with
    | 0 => simp [natBitsRev, bitsRevVal]
    | m + 1 =>
      rw [natBitsRev, bitsRevVal, ih ((m + 1) / 2) (Nat.div_lt_self (Nat.succ_pos m) (by decide))]
      have h2 : (m + 1) % 2 = 0 ∨ (m + 1) % 2 = 1 := by omega
      rcases h2 with h | h <;>
        simp [bitChar, h] <;> omega

theorem natBitsRev_all_bits (n : Nat) : (natBitsRev n).all isBitChar = true := by
  induction n using Nat.strong_induction_on with
  | _ n ih =>
    match n with
    | 0 => simp [natBitsRev]
    | m + 1 =>
      rw [natBitsRev]
      have hrec := ih ((m + 1) / 2) (Nat.div_lt_self (Nat.succ_pos m) (by decide))
      have h2 : (m + 1) % 2 = 0 ∨ (m + 1) % 2 = 1 := by omega
      rcases h2 with h | h <;> simp [bitChar, h, hrec, isBitChar]

theorem decNat_encNat (n : Nat) : decNat (encNat n) = some n := by
  rw [encNat, decNat]
  simp only [natBitsRev_all_bits, if_pos]
  rw [bitsRevVal_natBitsRev]

theorem decodeJwt_encodeJwt (t : Jwt) : decodeJwt (encodeJwt t) = some t := by
  rw [encodeJwt, decodeJwt, decNat_encNat]
  simp [jwtFromNat_jwtToNat]

/-- Encoded tokens contain only binary digits, hence no space. -/
theorem encodeJwt_no_space (t : Jwt) : ∀ c ∈ (encodeJwt t).data, c ≠ ' ' := by
  intro c hc
  have hall := natBitsRev_all_bits (jwtToNat t + 1)
  rw [List.all_eq_true] at hall
  have := hall c hc
  rcases (by simpa [isBitChar] using this : c = '0' ∨ c = '1') with h | h <;> subst h <;> decide

theorem decodeJwt_empty : decodeJwt "" = none := by
  rfl

/-! ### The JS `split(' ')` and the Authorization header

`authMiddleware.js` line 16: `const token = req.headers.authorization?.split(' ')[1];`.
JS `split(' ')` cuts at every single space, keeping empty pieces. -/

/-- Accumulator-style character splitter matching `String.prototype.split(' ')`. -/
def jsSplitAux : List Char → List Char → List (List Char)
  | [], acc => [acc.reverse]
  | c :: cs, acc =>
    if c = ' ' then acc.reverse :: jsSplitAux cs [] else jsSplitAux cs (c :: acc)

/-- JS `s.split(' ')`. -/
def jsSplitSpace (s : String) : List String :=
  (jsSplitAux s.data []).map fun cs => ⟨cs⟩

/-- JS `req.headers.authorization?.split(' ')[1]`: `none` is JS `undefined`
(missing header, or a header with no second space-separated part). -/
def tokenFromHeader (h : Option String) : Option String :=
  h.bind fun s => (jsSplitSpace s)[1]?

theorem jsSplitAux_no_space (l acc : List Char) (hl : ∀ c ∈ l, c ≠ ' ') :
    jsSplitAux l acc = [acc.reverse ++ l] := by
  induction l generalizing acc with
  | nil => simp [jsSplitAux]
  | cons c cs ih =>
    have hc : c ≠ ' ' := hl c (by simp)
    rw [jsSplitAux, if_neg hc, ih (c :: acc) (fun d hd => hl d (List.mem_cons_of_mem c hd))]
    simp

theorem jsSplitAux_append_space (l₁ l₂ acc : List Char) (hl : ∀ c ∈ l₁, c ≠ ' ') :
    jsSplitAux (l₁ ++ ' ' :: l₂) acc = (acc.reverse ++ l₁) :: jsSplitAux l₂ [] := by
  induction l₁ generalizing acc with
  | nil => simp [jsSplitAux]
  | cons c cs ih =>
    have hc : c ≠ ' ' := hl c (by simp)
    rw [List.cons_append, jsSplitAux, if_neg hc,
      ih (c :: acc) (fun d hd => hl d (List.mem_cons_of_mem c hd))]
    simp

/-- A scheme word followed by a space and a space-free token splits into
exactly those two parts. -/
theorem tokenFromHeader_scheme (scheme tok : String)
    (hs : ∀ c ∈ scheme.data, c ≠ ' ') (ht : ∀ c ∈ tok.data, c ≠ ' ') :
    tokenFromHeader (some (scheme ++ " " ++ tok)) = some tok := by
  have hdata : (scheme ++ " " ++ tok).data = scheme.data ++ ' ' :: tok.data := by
    simp [String.data_append]
  show ((jsSplitSpace (scheme ++ " " ++ tok))[1]?) = some tok
  rw [jsSplitSpace, hdata, jsSplitAux_append_space scheme.data tok.data [] hs,
    jsSplitAux_no_space tok.data [] ht]
  simp

/-- A header with no space at all yields no token part. -/
theorem tokenFromHeader_no_space (hdr : String) (h : ∀ c ∈ hdr.data, c ≠ ' ') :
    tokenFromHeader (some hdr) = none := by
  show ((jsSplitSpace hdr)[1]?) = none
  rw [jsSplitSpace, jsSplitAux_no_space hdr.data [] h]
  simp

/-! ### HTTP responses and data model of the composed view -/

/-- An activity event is passed through opaquely by the server. -/
abbrev Activity := String

/-- An upstream commit summary; the server passes it through opaquely. -/
structure Commit where
  short_id : String
  message : String
deriving DecidableEq

/-- An upstream project record (representative fields). -/
structure Project where
  id : Nat
  name : String
deriving DecidableEq

/-- An upstream group record (representative fields). -/
structure Group where
  id : Nat
  name : String
deriving DecidableEq

/-- `{...project, latest_commit: commitsResponse.data[0]}` after
`res.json` serialisation: a JS field holding `undefined` (here: `data[0]` of
an empty array) is dropped by `JSON.stringify`, so `latest_commit = none`
models a project record carrying no `latest_commit` field. -/
structure ProjectView where
  project : Project
  latest_commit : Option Commit
deriving DecidableEq

/-- `{...group, projects: projectsWithCommits}`. -/
structure GroupView where
  group : Group
  projects : List ProjectView
deriving DecidableEq

/-- Body of the successful composed response:
`{ user, activities, groups }`. -/
structure HomeBody where
  user : User
  activities : List Activity
  groups : List GroupView
deriving DecidableEq

/-- Response bodies the server can produce. -/
inductive Body where
  /-- `res.json` of the composed view model. -/
  | homeJson (b : HomeBody)
  /-- `res.json` of an object with a single `message` field. -/
  | msgJson (m : String)
  /-- `res.send` of a plain text message. -/
  | text (s : String)
  /-- The logout HTML page: removes the stored credential client-side and
  redirects to the root path. -/
  | logoutPage
  /-- The callback HTML page: stores the given credential string client-side
  and redirects to the root path. -/
  | tokenPage (token : String)
deriving DecidableEq

/-- An HTTP response: status code and body. -/
structure Resp where
  status : Nat
  body : Body
deriving DecidableEq

/-- The 401 response of the auth middleware. -/
def resp401 : Resp := ⟨401, .msgJson "Unauthorized"⟩

/-- The 500 response of the aggregation pipeline. -/
def resp500fetch : Resp := ⟨500, .text "Error fetching data from GitLab"⟩

/-! ### Credential verifier (`authMiddleware.js`) -/

/-- `jwt.verify(token, secret)` at clock time `now`: parse the wire token,
recompute the MAC, check expiry.  `none` models the verify call throwing. -/
def verifyToken (secret now : Nat) (s : String) : Option JwtPayload :=
  match decodeJwt s with
  | none => none
  | some t =>
    if t.sig = sign secret t.payload t.exp ∧ now < t.exp then some t.payload else none

/-- `jwt.sign({user, accessToken}, JWT_SECRET, {expiresIn: '1h'})` with the
expiry timestamp supplied by the caller. -/
def mintToken (secret : Nat) (p : JwtPayload) (exp : Nat) : String :=
  encodeJwt ⟨p, exp, sign secret p exp⟩

/-- The `isAuthenticated` middleware composed with a downstream handler:
extract the token as `authorization?.split(' ')[1]`, fail 401 on a falsy
token (`undefined` or the empty string), verify, and on success invoke the
handler with the decoded payload as `req.user`. -/
def isAuthenticatedThen (secret now : Nat) (authHeader : Option String)
    (handler : JwtPayload → Resp) : Resp :=
  match tokenFromHeader authHeader with
  | none => resp401
  | some t =>
    if t = "" then resp401
    else
      match verifyToken secret now t with
      | none => resp401
      | some p => handler p

/-! ### Upstream oracle and the aggregation pipeline (`homeController.js`) -/

/-- An outbound HTTP call the server can make. -/
inductive Call where
  /-- `GET /api/v4/events`. -/
  | events
  /-- `GET /api/v4/groups`. -/
  | groups
  /-- `GET /api/v4/groups/:id/projects`. -/
  | groupProjects (groupId : Nat)
  /-- `GET /api/v4/projects/:id/repository/commits`. -/
  | projectCommits (projectId : Nat)
  /-- `POST /oauth/token` with the given authorization code. -/
  | tokenExchange (code : String)
  /-- `GET /api/v4/user` with the given access token. -/
  | userProfile (accessToken : String)
deriving DecidableEq

/-- The upstream GitLab API as an oracle: each endpoint, called with a bearer
access token, either returns data or fails (network error or non-2xx status, which
axios surfaces as a rejected promise). -/
structure Upstream where
  events : String → Except Unit (List Activity)
  groups : String → Except Unit (List Group)
  groupProjects : String → Nat → Except Unit (List Project)
  projectCommits : String → Nat → Except Unit (List Commit)
  tokenExchange : String → Except Unit String
  userProfile : String → Except Unit User

/-- `Promise.all(list.map f)`: rejects exactly when some element rejects,
otherwise resolves to the results in order. -/
def promiseAll {α β : Type} (f : α → Except Unit β) : List α → Except Unit (List β)
  | [] => .ok []
  | x :: xs =>
    match f x, promiseAll f xs with
    | .error e, _ => .error e
    | _, .error e => .error e
    | .ok y, .ok ys => .ok (y :: ys)

/-- Inner map body of the pipeline: fetch the latest commit of one project
(`per_page: 1`) and attach it as `latest_commit`. -/
def enrichProject (u : Upstream) (tok : String) (p : Project) : Except Unit ProjectView :=
  match u.projectCommits tok p.id with
  | .error e => .error e
  | .ok commits => .ok ⟨p, commits.head?⟩

/-- Outer map body: fetch one group's projects, then all their latest
commits in parallel. -/
def enrichGroup (u : Upstream) (tok : String) (g : Group) : Except Unit GroupView :=
  match u.groupProjects tok g.id with
  | .error e => .error e
  | .ok projects =>
    match promiseAll (enrichProject u tok) projects with
    | .error e => .error e
    | .ok pvs => .ok ⟨g, pvs⟩

/-- The `home` handler: events, then groups, then the group or project
fan-out; any failure is caught and answered with a single generic 500. -/
def home (u : Upstream) (payload : JwtPayload) : Resp :=
  match u.events payload.accessToken with
  | .error _ => resp500fetch
  | .ok acts =>
    match u.groups payload.accessToken with
    | .error _ => resp500fetch
    | .ok gs =>
      match promiseAll (enrichGroup u payload.accessToken) gs with
      | .error _ => resp500fetch
      | .ok gvs => ⟨200, .homeJson ⟨payload.user, acts, gvs⟩⟩

/-- The `logout` handler: unconditionally sends the credential-clearing page. -/
def logout : Resp :=
  ⟨200, .logoutPage⟩

/-- The `/home` router: `/auth` is guarded by `isAuthenticated`, `/logout`
is not. -/
def homeRouter (secret now : Nat) (u : Upstream) (path : String)
    (authHeader : Option String) : Option Resp :=
  if path = "/auth" then some (isAuthenticatedThen secret now authHeader (home u))
  else if path = "/logout" then some logout
  else none

/-! ### OAuth callback (`authController.js`) -/

/-- The `callback` handler, at clock time `now`, together with the list of
outbound calls it performed, in order.  A missing or empty `code` query
parameter is falsy in JS and is answered 400 before any outbound call. -/
def callback (u : Upstream) (secret now : Nat) (code : Option String) :
    Resp × List Call :=
  match code with
  | none => (⟨400, .text "Authorization code is missing"⟩, [])
  | some c =>
    if c = "" then (⟨400, .text "Authorization code is missing"⟩, [])
    else
      match u.tokenExchange c with
      | .error _ => (⟨500, .text "Error during OAuth flow"⟩, [.tokenExchange c])
      | .ok accessToken =>
        match u.userProfile accessToken with
        | .error _ =>
          (⟨500, .text "Error during OAuth flow"⟩,
            [.tokenExchange c, .userProfile accessToken])
        | .ok user =>
          (⟨200, .tokenPage (mintToken secret ⟨user, accessToken⟩ (now + 3600))⟩,
            [.tokenExchange c, .userProfile accessToken])

/-! ### Helper lemmas about the pipeline and the middleware -/

theorem promiseAll_ok {α β : Type} (f : α → Except Unit β) (g : α → β) (l : List α)
    (h : ∀ x ∈ l, f x = .ok (g x)) : promiseAll f l = .ok (l.map g) := by
  induction l with
  | nil => rfl
  | cons x xs ih =>
    rw [promiseAll, h x (by simp), ih (fun y hy => h y (List.mem_cons_of_mem x hy))]
    simp

theorem promiseAll_error {α β : Type} (f : α → Except Unit β) (l : List α)
    (h : ∃ x ∈ l, f x = .error ()) : promiseAll f l = .error () := by
  induction l with
  | nil => simp at h
  | cons x xs ih =>
    rw [promiseAll]
    rcases h with ⟨y, hy, hye⟩
    rcases List.mem_cons.mp hy with he | hm
    · subst he
      simp only [hye]
    · rw [ih ⟨y, hm, hye⟩]
      cases f x <;> rfl

/-- Closed form of a fully successful `home` request. -/
theorem home_ok (u : Upstream) (payload : JwtPayload) (acts : List Activity)
    (gs : List Group) (ps : Group → List Project) (cs : Project → List Commit)
    (hev : u.events payload.accessToken = .ok acts)
    (hgs : u.groups payload.accessToken = .ok gs)
    (hps : ∀ g ∈ gs, u.groupProjects payload.accessToken g.id = .ok (ps g))
    (hcs : ∀ g ∈ gs, ∀ p ∈ ps g, u.projectCommits payload.accessToken p.id = .ok (cs p)) :
    home u payload = ⟨200, .homeJson ⟨payload.user, acts,
      gs.map (fun g => ⟨g, (ps g).map (fun p => ⟨p, (cs p).head?⟩)⟩)⟩⟩ := by
  have hall : promiseAll (enrichGroup u payload.accessToken) gs
      = .ok (gs.map (fun g => ⟨g, (ps g).map (fun p => ⟨p, (cs p).head?⟩)⟩)) := by
    refine promiseAll_ok (enrichGroup u payload.accessToken)
      (fun g => ⟨g, (ps g).map (fun p => ⟨p, (cs p).head?⟩)⟩) gs (fun g hg => ?_)
    have hinner : promiseAll (enrichProject u payload.accessToken) (ps g)
        = .ok ((ps g).map (fun p => (⟨p, (cs p).head?⟩ : ProjectView))) :=
      promiseAll_ok (enrichProject u payload.accessToken)
        (fun p => (⟨p, (cs p).head?⟩ : ProjectView)) (ps g)
        (fun p hp => by rw [enrichProject, hcs g hg p hp])
    rw [enrichGroup, hps g hg]
    simp only [hinner]
  simp only [home, hev, hgs, hall]

theorem isAuthenticatedThen_valid (secret now : Nat) (hdr tokStr : String) (t : Jwt)
    (handler : JwtPayload → Resp)
    (h1 : tokenFromHeader (some hdr) = some tokStr)
    (h2 : decodeJwt tokStr = some t)
    (h3 : t.sig = sign secret t.payload t.exp) (h4 : now < t.exp) :
    isAuthenticatedThen secret now (some hdr) handler = handler t.payload := by
  have hne : tokStr ≠ "" := by
    intro he
    rw [he, decodeJwt_empty] at h2
    exact Option.noConfusion h2
  have hv : verifyToken secret now tokStr = some t.payload := by
    rw [verifyToken, h2]
    show (if t.sig = sign secret t.payload t.exp ∧ now < t.exp then some t.payload else none)
      = some t.payload
    rw [if_pos ⟨h3, h4⟩]
  simp only [isAuthenticatedThen, h1, if_neg hne, hv]

theorem isAuthenticatedThen_badToken (secret now : Nat) (hdr tokStr : String)
    (handler : JwtPayload → Resp)
    (h1 : tokenFromHeader (some hdr) = some tokStr)
    (h2 : verifyToken secret now tokStr = none) :
    isAuthenticatedThen secret now (some hdr) handler = resp401 := by
  by_cases he : tokStr = ""
  · simp only [isAuthenticatedThen, h1, if_pos he]
  · simp only [isAuthenticatedThen, h1, if_neg he, h2]

/-- `home` reads the upstream oracle only through the events, groups,
group-projects and project-commits endpoints, never through the user-profile
endpoint. -/
def withUserProfile (u : Upstream) (f : String → Except Unit User) : Upstream :=
  { u with userProfile := f }

instance {α β : Type} [DecidableEq α] [DecidableEq β] : DecidableEq (Except α β) :=
  fun x y =>
    match x, y with
    | .ok a, .ok b =>
      if h : a = b then .isTrue (congrArg Except.ok h)
      else .isFalse (fun hc => h (Except.ok.inj hc))
    | .error a, .error b =>
      if h : a = b then .isTrue (congrArg Except.error h)
      else .isFalse (fun hc => h (Except.error.inj hc))
    | .ok _, .error _ => .isFalse (fun hc => Except.noConfusion hc)
    | .error _, .ok _ => .isFalse (fun hc => Except.noConfusion hc)

/-! ### Claims -/

/-- C1: a request reaching the credential verifier succeeds, handing the
embedded payload to the downstream handler, exactly when the Authorization
header carries a token whose signature verifies against the server secret
and whose expiry has not passed; a missing header, a malformed token, a
tampered signature, or an expired credential (even with a valid signature)
each produce the 401 Unauthorized response, with the downstream handler never
invoked (the response is the same for every handler). -/
theorem c1_credential_verifier (secret now : Nat) (handler : JwtPayload → Resp) :
    (∀ (hdr tokStr : String) (t : Jwt),
        tokenFromHeader (some hdr) = some tokStr →
        decodeJwt tokStr = some t →
        t.sig = sign secret t.payload t.exp →
        now < t.exp →
        isAuthenticatedThen secret now (some hdr) handler = handler t.payload)
    ∧ isAuthenticatedThen secret now none handler = resp401
    ∧ (∀ hdr tokStr, tokenFromHeader (some hdr) = some tokStr →
        decodeJwt tokStr = none →
        isAuthenticatedThen secret now (some hdr) handler = resp401)
    ∧ (∀ hdr tokStr t, tokenFromHeader (some hdr) = some tokStr →
        decodeJwt tokStr = some t →
        t.sig ≠ sign secret t.payload t.exp →
        isAuthenticatedThen secret now (some hdr) handler = resp401)
    ∧ (∀ hdr tokStr t, tokenFromHeader (some hdr) = some tokStr →
        decodeJwt tokStr = some t →
        t.exp ≤ now →
        isAuthenticatedThen secret now (some hdr) handler = resp401) := by
  refine ⟨fun hdr tokStr t h1 h2 h3 h4 =>
    isAuthenticatedThen_valid secret now hdr tokStr t handler h1 h2 h3 h4,
    rfl, ?_, ?_, ?_⟩
  · intro hdr tokStr h1 h2
    refine isAuthenticatedThen_badToken secret now hdr tokStr handler h1 ?_
    simp only [verifyToken, h2]
  · intro hdr tokStr t h1 h2 h3
    refine isAuthenticatedThen_badToken secret now hdr tokStr handler h1 ?_
    rw [verifyToken, h2]
    show (if t.sig = sign secret t.payload t.exp ∧ now < t.exp
      then some t.payload else none) = none
    exact if_neg (fun hc => h3 hc.1)
  · intro hdr tokStr t h1 h2 h3
    refine isAuthenticatedThen_badToken secret now hdr tokStr handler h1 ?_
    rw [verifyToken, h2]
    show (if t.sig = sign secret t.payload t.exp ∧ now < t.exp
      then some t.payload else none) = none
    exact if_neg (fun hc => absurd hc.2 (Nat.not_lt.mpr h3))

/-- C1 witness: a concrete signed, unexpired token authenticates and the
handler receives the embedded payload; the tampered variant of the same
token is rejected. -/
theorem c1_credential_verifier_witness :
    isAuthenticatedThen 7 5
      (some ("Bearer " ++ encodeJwt ⟨⟨⟨1, "u"⟩, "tk"⟩, 9, sign 7 ⟨⟨1, "u"⟩, "tk"⟩ 9⟩))
      (fun p => ⟨200, .text p.accessToken⟩) = ⟨200, .text "tk"⟩ := by
  have h := (c1_credential_verifier 7 5 (fun p => ⟨200, .text p.accessToken⟩)).1
    ("Bearer " ++ encodeJwt ⟨⟨⟨1, "u"⟩, "tk"⟩, 9, sign 7 ⟨⟨1, "u"⟩, "tk"⟩ 9⟩)
    (encodeJwt ⟨⟨⟨1, "u"⟩, "tk"⟩, 9, sign 7 ⟨⟨1, "u"⟩, "tk"⟩ 9⟩)
    ⟨⟨⟨1, "u"⟩, "tk"⟩, 9, sign 7 ⟨⟨1, "u"⟩, "tk"⟩ 9⟩
    (tokenFromHeader_scheme "Bearer" _ (by decide) (encodeJwt_no_space _))
    (decodeJwt_encodeJwt _) rfl (by decide)
  exact h

/-- C9: the verifier never inspects the authorization scheme word: any
space-free scheme followed by a validly signed, unexpired token
authenticates; and a header containing no space at all (no second
space-separated part) is rejected with 401 Unauthorized. -/
theorem c9_scheme_ignored (secret now : Nat) (handler : JwtPayload → Resp) :
    (∀ (scheme : String) (t : Jwt),
        (∀ c ∈ scheme.data, c ≠ ' ') →
        t.sig = sign secret t.payload t.exp →
        now < t.exp →
        isAuthenticatedThen secret now (some (scheme ++ " " ++ encodeJwt t)) handler
          = handler t.payload)
    ∧ (∀ hdr : String, (∀ c ∈ hdr.data, c ≠ ' ') →
        isAuthenticatedThen secret now (some hdr) handler = resp401) := by
  constructor
  · intro scheme t hs h3 h4
    exact isAuthenticatedThen_valid secret now _ (encodeJwt t) t handler
      (tokenFromHeader_scheme scheme (encodeJwt t) hs (encodeJwt_no_space t))
      (decodeJwt_encodeJwt t) h3 h4
  · intro hdr h
    simp only [isAuthenticatedThen, tokenFromHeader_no_space hdr h]

/-- C9 witness: the scheme word `Basic` works as well as `Bearer`, and a
spaceless header fails. -/
theorem c9_scheme_ignored_witness :
    isAuthenticatedThen 7 5
      (some ("Basic " ++ encodeJwt ⟨⟨⟨1, "u"⟩, "tk"⟩, 9, sign 7 ⟨⟨1, "u"⟩, "tk"⟩ 9⟩))
      (fun p => ⟨200, .text p.accessToken⟩) = ⟨200, .text "tk"⟩
    ∧ isAuthenticatedThen 7 5 (some "nospace")
      (fun p => ⟨200, .text p.accessToken⟩) = resp401 := by
  constructor
  · exact (c9_scheme_ignored 7 5 (fun p => ⟨200, .text p.accessToken⟩)).1
      "Basic" ⟨⟨⟨1, "u"⟩, "tk"⟩, 9, sign 7 ⟨⟨1, "u"⟩, "tk"⟩ 9⟩ (by decide) rfl (by decide)
  · exact (c9_scheme_ignored 7 5 (fun p => ⟨200, .text p.accessToken⟩)).2
      "nospace" (by decide)

/-- C2: on a fully successful aggregation, the composed response lists the
upstream groups exactly, in upstream order, and each group's projects
exactly, in upstream order; the commit-enrichment step drops, adds and
reorders nothing. -/
theorem c2_composition_preserves_structure (u : Upstream) (payload : JwtPayload)
    (acts : List Activity) (gs : List Group)
    (ps : Group → List Project) (cs : Project → List Commit)
    (hev : u.events payload.accessToken = .ok acts)
    (hgs : u.groups payload.accessToken = .ok gs)
    (hps : ∀ g ∈ gs, u.groupProjects payload.accessToken g.id = .ok (ps g))
    (hcs : ∀ g ∈ gs, ∀ p ∈ ps g, u.projectCommits payload.accessToken p.id = .ok (cs p)) :
    ∃ body, home u payload = ⟨200, .homeJson body⟩
      ∧ body.groups.map GroupView.group = gs
      ∧ body.groups.map (fun gv => gv.projects.map ProjectView.project) = gs.map ps := by
  refine ⟨_, home_ok u payload acts gs ps cs hev hgs hps hcs, ?_, ?_⟩
  · simp [Function.comp_def]
  · simp [Function.comp_def]

/-- C2 witness: two groups with one and zero projects round-trip through the
pipeline unchanged. -/
theorem c2_composition_preserves_structure_witness :
    ∃ body,
      home
        ⟨fun _ => .ok [], fun _ => .ok [⟨1, "g1"⟩, ⟨2, "g2"⟩],
          fun _ gid => .ok (if gid = 1 then [⟨10, "p"⟩] else []),
          fun _ _ => .ok [⟨"abc", "m"⟩], fun _ => .error (), fun _ => .error ()⟩
        ⟨⟨1, "u"⟩, "tk"⟩ = ⟨200, .homeJson body⟩
      ∧ body.groups.map GroupView.group = [⟨1, "g1"⟩, ⟨2, "g2"⟩]
      ∧ body.groups.map (fun gv => gv.projects.map ProjectView.project)
          = [[⟨10, "p"⟩], []] := by
  have h := c2_composition_preserves_structure
    ⟨fun _ => .ok [], fun _ => .ok [⟨1, "g1"⟩, ⟨2, "g2"⟩],
      fun _ gid => .ok (if gid = 1 then [⟨10, "p"⟩] else []),
      fun _ _ => .ok [⟨"abc", "m"⟩], fun _ => .error (), fun _ => .error ()⟩
    ⟨⟨1, "u"⟩, "tk"⟩ [] [⟨1, "g1"⟩, ⟨2, "g2"⟩]
    (fun g => if g.id = 1 then [⟨10, "p"⟩] else [])
    (fun _ => [⟨"abc", "m"⟩]) rfl rfl (by decide) (by decide)
  rcases h with ⟨body, h1, h2, h3⟩
  refine ⟨body, h1, h2, ?_⟩
  rw [h3]
  decide

/-- C3: in the composed response, a project whose upstream commits list is
empty carries no `latest_commit` field (the JS `data[0]` is `undefined` and
`res.json` drops the field), and a project with at least one commit carries
exactly the first commit of the upstream response. -/
theorem c3_latest_commit_attachment (u : Upstream) (payload : JwtPayload)
    (acts : List Activity) (gs : List Group)
    (ps : Group → List Project) (cs : Project → List Commit)
    (hev : u.events payload.accessToken = .ok acts)
    (hgs : u.groups payload.accessToken = .ok gs)
    (hps : ∀ g ∈ gs, u.groupProjects payload.accessToken g.id = .ok (ps g))
    (hcs : ∀ g ∈ gs, ∀ p ∈ ps g, u.projectCommits payload.accessToken p.id = .ok (cs p)) :
    ∃ body, home u payload = ⟨200, .homeJson body⟩
      ∧ ∀ gv ∈ body.groups, ∀ pv ∈ gv.projects,
          (cs pv.project = [] → pv.latest_commit = none)
          ∧ (∀ c rest, cs pv.project = c :: rest → pv.latest_commit = some c) := by
  refine ⟨_, home_ok u payload acts gs ps cs hev hgs hps hcs, ?_⟩
  intro gv hgv pv hpv
  simp only [List.mem_map] at hgv
  rcases hgv with ⟨g, hg, rfl⟩
  simp only [List.mem_map] at hpv
  rcases hpv with ⟨p, hp, rfl⟩
  constructor
  · intro hnil
    simp [hnil]
  · intro c rest hcons
    simp [hcons]

/-- C3 witness: one group with a commitless project and a project with one
commit; the first carries no `latest_commit`, the second carries that
commit. -/
theorem c3_latest_commit_attachment_witness :
    ∃ body,
      home
        ⟨fun _ => .ok [], fun _ => .ok [⟨1, "g1"⟩],
          fun _ _ => .ok [⟨10, "p0"⟩, ⟨11, "p1"⟩],
          fun _ pid => .ok (if pid = 11 then [⟨"abc", "m"⟩] else []),
          fun _ => .error (), fun _ => .error ()⟩
        ⟨⟨1, "u"⟩, "tk"⟩ = ⟨200, .homeJson body⟩
      ∧ ∀ gv ∈ body.groups, ∀ pv ∈ gv.projects,
          ((if pv.project.id = 11 then [(⟨"abc", "m"⟩ : Commit)] else []) = []
            → pv.latest_commit = none)
          ∧ (∀ c rest,
              (if pv.project.id = 11 then [(⟨"abc", "m"⟩ : Commit)] else []) = c :: rest
              → pv.latest_commit = some c) :=
  c3_latest_commit_attachment
    ⟨fun _ => .ok [], fun _ => .ok [⟨1, "g1"⟩],
      fun _ _ => .ok [⟨10, "p0"⟩, ⟨11, "p1"⟩],
      fun _ pid => .ok (if pid = 11 then [⟨"abc", "m"⟩] else []),
      fun _ => .error (), fun _ => .error ()⟩
    ⟨⟨1, "u"⟩, "tk"⟩ [] [⟨1, "g1"⟩]
    (fun _ => [⟨10, "p0"⟩, ⟨11, "p1"⟩])
    (fun p => if p.id = 11 then [⟨"abc", "m"⟩] else [])
    rfl rfl (by decide) (by decide)

/-- C4: any single upstream failure (events, groups, one group's projects,
or one project's commits) makes the whole request answer the same generic
500 response, whose body is a constant string carrying no groups, projects,
activities or commits and not identifying the failed stage. -/
theorem c4_failure_all_or_nothing (u : Upstream) (payload : JwtPayload) :
    (u.events payload.accessToken = .error () → home u payload = resp500fetch)
    ∧ (u.groups payload.accessToken = .error () → home u payload = resp500fetch)
    ∧ (∀ gs, u.groups payload.accessToken = .ok gs →
        (∃ g ∈ gs, u.groupProjects payload.accessToken g.id = .error ()) →
        home u payload = resp500fetch)
    ∧ (∀ gs (ps : Group → List Project), u.groups payload.accessToken = .ok gs →
        (∀ g ∈ gs, u.groupProjects payload.accessToken g.id = .ok (ps g)) →
        (∃ g ∈ gs, ∃ p ∈ ps g, u.projectCommits payload.accessToken p.id = .error ()) →
        home u payload = resp500fetch) := by
  refine ⟨?_, ?_, ?_, ?_⟩
  · intro h
    simp only [home, h]
  · intro h
    cases hev : u.events payload.accessToken with
    | error e => simp only [home, hev]
    | ok acts => simp only [home, hev, h]
  · intro gs hgs hex
    rcases hex with ⟨g, hg, hge⟩
    have hall : promiseAll (enrichGroup u payload.accessToken) gs = .error () :=
      promiseAll_error _ gs ⟨g, hg, by simp only [enrichGroup, hge]⟩
    cases hev : u.events payload.accessToken with
    | error e => simp only [home, hev]
    | ok acts => simp only [home, hev, hgs, hall]
  · intro gs ps hgs hps hex
    rcases hex with ⟨g, hg, p, hp, hpe⟩
    have hinner : promiseAll (enrichProject u payload.accessToken) (ps g) = .error () :=
      promiseAll_error _ (ps g) ⟨p, hp, by simp only [enrichProject, hpe]⟩
    have hgroup : enrichGroup u payload.accessToken g = .error () := by
      simp only [enrichGroup, hps g hg, hinner]
    have hall : promiseAll (enrichGroup u payload.accessToken) gs = .error () :=
      promiseAll_error _ gs ⟨g, hg, hgroup⟩
    cases hev : u.events payload.accessToken with
    | error e => simp only [home, hev]
    | ok acts => simp only [home, hev, hgs, hall]

/-- C4 witness: with the groups call succeeding and one group's projects call
failing, the response is exactly the generic 500. -/
theorem c4_failure_all_or_nothing_witness :
    home
      ⟨fun _ => .ok [], fun _ => .ok [⟨1, "g1"⟩],
        fun _ _ => .error (), fun _ _ => .ok [], fun _ => .error (), fun _ => .error ()⟩
      ⟨⟨1, "u"⟩, "tk"⟩ = resp500fetch :=
  (c4_failure_all_or_nothing
    ⟨fun _ => .ok [], fun _ => .ok [⟨1, "g1"⟩],
      fun _ _ => .error (), fun _ _ => .ok [], fun _ => .error (), fun _ => .error ()⟩
    ⟨⟨1, "u"⟩, "tk"⟩).2.2.1 [⟨1, "g1"⟩] rfl ⟨⟨1, "g1"⟩, by decide, rfl⟩

/-- C5: a callback request with no `code` query parameter is answered 400
with the missing-code message and performs no outbound call at all; in
particular the token-exchange POST is never attempted. -/
theorem c5_missing_code_no_exchange (u : Upstream) (secret now : Nat) :
    callback u secret now none = (⟨400, .text "Authorization code is missing"⟩, []) :=
  rfl

/-- C6: with a (truthy) `code`, a successful exchange and profile fetch mint
a credential embedding exactly the fetched profile and the upstream access
token, with a one-hour expiry, delivered on the HTML page that stores it
client-side and redirects to the root; a failure of either step yields the
generic 500 and the response carries no credential. -/
theorem c6_callback_mints_credential (u : Upstream) (secret now : Nat)
    (c : String) (hc : c ≠ "") :
    (∀ tok user, u.tokenExchange c = .ok tok → u.userProfile tok = .ok user →
        callback u secret now (some c)
          = (⟨200, .tokenPage (mintToken secret ⟨user, tok⟩ (now + 3600))⟩,
             [.tokenExchange c, .userProfile tok]))
    ∧ (u.tokenExchange c = .error () →
        callback u secret now (some c)
          = (⟨500, .text "Error during OAuth flow"⟩, [.tokenExchange c]))
    ∧ (∀ tok, u.tokenExchange c = .ok tok → u.userProfile tok = .error () →
        callback u secret now (some c)
          = (⟨500, .text "Error during OAuth flow"⟩,
             [.tokenExchange c, .userProfile tok])) := by
  refine ⟨?_, ?_, ?_⟩
  · intro tok user h1 h2
    simp only [callback, if_neg hc, h1, h2]
  · intro h1
    simp only [callback, if_neg hc, h1]
  · intro tok h1 h2
    simp only [callback, if_neg hc, h1, h2]

/-- C6 witness: a concrete successful exchange mints the expected token
page. -/
theorem c6_callback_mints_credential_witness :
    callback
      ⟨fun _ => .error (), fun _ => .error (), fun _ _ => .error (), fun _ _ => .error (),
        fun _ => .ok "tk", fun _ => .ok ⟨1, "u"⟩⟩
      7 100 (some "thecode")
      = (⟨200, .tokenPage (mintToken 7 ⟨⟨1, "u"⟩, "tk"⟩ 3700)⟩,
         [.tokenExchange "thecode", .userProfile "tk"]) :=
  (c6_callback_mints_credential
    ⟨fun _ => .error (), fun _ => .error (), fun _ _ => .error (), fun _ _ => .error (),
      fun _ => .ok "tk", fun _ => .ok ⟨1, "u"⟩⟩
    7 100 "thecode" (by decide)).1 "tk" ⟨1, "u"⟩ rfl rfl

/-- C8: `GET /home/logout` returns the 200 credential-clearing page whatever
the Authorization header holds (valid, expired, absent: the route is not
guarded), while `GET /home/auth` is guarded and answers 401 without a
credential. -/
theorem c8_logout_unguarded (secret now : Nat) (u : Upstream)
    (authHeader : Option String) :
    homeRouter secret now u "/logout" authHeader = some ⟨200, .logoutPage⟩
    ∧ homeRouter secret now u "/auth" none = some resp401 := by
  constructor
  · have h1 : ("/logout" : String) ≠ "/auth" := by decide
    rw [homeRouter, if_neg h1, if_pos rfl]
    rfl
  · rw [homeRouter, if_pos rfl]
    rfl


/-- C10: the `user` field of a successful composed response is exactly the
profile snapshot embedded in the session credential when `callback` minted
it; the pipeline result never depends on the user-profile endpoint (no
re-fetch); and a credential minted at time `t0` stops verifying once its
fixed one-hour expiry has passed, bounding the staleness of the snapshot. -/
theorem c10_user_profile_snapshot (secret t0 now : Nat) (user : User)
    (accessToken : String) (u : Upstream) (acts : List Activity) (gs : List Group)
    (ps : Group → List Project) (cs : Project → List Commit) :
    (now < t0 + 3600 →
      u.events accessToken = .ok acts →
      u.groups accessToken = .ok gs →
      (∀ g ∈ gs, u.groupProjects accessToken g.id = .ok (ps g)) →
      (∀ g ∈ gs, ∀ p ∈ ps g, u.projectCommits accessToken p.id = .ok (cs p)) →
      ∃ body, isAuthenticatedThen secret now
          (some ("Bearer " ++ mintToken secret ⟨user, accessToken⟩ (t0 + 3600)))
          (home u) = ⟨200, .homeJson body⟩ ∧ body.user = user)
    ∧ (∀ f payload, home (withUserProfile u f) payload = home u payload)
    ∧ (t0 + 3600 ≤ now → ∀ handler,
        isAuthenticatedThen secret now
          (some ("Bearer " ++ mintToken secret ⟨user, accessToken⟩ (t0 + 3600)))
          handler = resp401) := by
  refine ⟨?_, fun f payload => rfl, ?_⟩
  · intro hnow hev hgs hps hcs
    have hvalid := isAuthenticatedThen_valid secret now
      ("Bearer " ++ mintToken secret ⟨user, accessToken⟩ (t0 + 3600))
      (mintToken secret ⟨user, accessToken⟩ (t0 + 3600))
      ⟨⟨user, accessToken⟩, t0 + 3600, sign secret ⟨user, accessToken⟩ (t0 + 3600)⟩
      (home u)
      (tokenFromHeader_scheme "Bearer" _ (by decide) (encodeJwt_no_space _))
      (decodeJwt_encodeJwt _) rfl hnow
    rw [hvalid, home_ok u ⟨user, accessToken⟩ acts gs ps cs hev hgs hps hcs]
    exact ⟨_, rfl, rfl⟩
  · intro hexp handler
    refine isAuthenticatedThen_badToken secret now _
      (mintToken secret ⟨user, accessToken⟩ (t0 + 3600)) handler
      (tokenFromHeader_scheme "Bearer" _ (by decide) (encodeJwt_no_space _)) ?_
    rw [verifyToken, mintToken, decodeJwt_encodeJwt]
    show (if sign secret ⟨user, accessToken⟩ (t0 + 3600)
          = sign secret ⟨user, accessToken⟩ (t0 + 3600) ∧ now < t0 + 3600
        then some (⟨user, accessToken⟩ : JwtPayload) else none) = none
    exact if_neg (fun hcon => absurd hcon.2 (Nat.not_lt.mpr hexp))

/-- C10 witness: a credential minted at time 0 drives a successful request
at time 10 whose response user is the embedded snapshot, and the same
credential is rejected at time 3600. -/
theorem c10_user_profile_snapshot_witness :
    (∃ body, isAuthenticatedThen 7 10
        (some ("Bearer " ++ mintToken 7 ⟨⟨1, "u"⟩, "tk"⟩ 3600))
        (home ⟨fun _ => .ok [], fun _ => .ok [], fun _ _ => .ok [],
          fun _ _ => .ok [], fun _ => .error (), fun _ => .error ()⟩)
        = ⟨200, .homeJson body⟩ ∧ body.user = ⟨1, "u"⟩)
    ∧ isAuthenticatedThen 7 3600
        (some ("Bearer " ++ mintToken 7 ⟨⟨1, "u"⟩, "tk"⟩ 3600))
        (home ⟨fun _ => .ok [], fun _ => .ok [], fun _ _ => .ok [],
          fun _ _ => .ok [], fun _ => .error (), fun _ => .error ()⟩) = resp401 := by
  have h := c10_user_profile_snapshot 7 0 10 ⟨1, "u"⟩ "tk"
    ⟨fun _ => .ok [], fun _ => .ok [], fun _ _ => .ok [],
      fun _ _ => .ok [], fun _ => .error (), fun _ => .error ()⟩
    [] [] (fun _ => []) (fun _ => [])
  have h2 := c10_user_profile_snapshot 7 0 3600 ⟨1, "u"⟩ "tk"
    ⟨fun _ => .ok [], fun _ => .ok [], fun _ _ => .ok [],
      fun _ _ => .ok [], fun _ => .error (), fun _ => .error ()⟩
    [] [] (fun _ => []) (fun _ => [])
  exact ⟨h.1 (by decide) rfl rfl (by decide) (by decide),
    h2.2.2 (by decide) _⟩

/-! ### C7: concurrency shape of the aggregation pipeline

The `home` handler awaits the events fetch, then the groups fetch, then runs
`Promise.all` over the groups; each group's async callback awaits that
group's projects fetch and only then runs `Promise.all` over its per-project
commit fetches.  The machine below describes exactly this control structure:
states record which continuations exist, transitions fire completions in any
order (the interleaving is nondeterministic) and emit issue events at the
moment the corresponding `axios.get` call is made.  A rejected events or
groups fetch aborts before the fan-out; a rejected projects fetch completes
its group without issuing commit fetches (other groups keep running, as
`Promise.all` does not cancel). -/

/-- A scheduling event: an upstream call being issued, or completing with
the list of ids it returned (empty where the ordering does not care). -/
inductive Ev where
  | issue (c : Call)
  | complete (c : Call) (ids : List Nat)
deriving DecidableEq

/-- Progress of one group inside the fan-out: its projects fetch is still
outstanding, or it returned the given project ids whose commit fetches are
still pending. -/
inductive GSt where
  | waitingProjects
  | fetchingCommits (pending : List Nat)
deriving DecidableEq

/-- Control state of one aggregation request. -/
inductive PipeState where
  | start
  | waitEvents
  | waitGroups
  | fanout (gs : List (Nat × GSt))
  | failed
deriving DecidableEq

/-- One scheduling step of the pipeline, labelled with the events it emits. -/
inductive Step : PipeState → List Ev → PipeState → Prop where
  | issueEvents : Step .start [.issue .events] .waitEvents
  | eventsOk : Step .waitEvents [.complete .events [], .issue .groups] .waitGroups
  | eventsFail : Step .waitEvents [.complete .events []] .failed
  | groupsOk (gids : List Nat) :
      Step .waitGroups
        (.complete .groups gids :: gids.map (fun g => .issue (.groupProjects g)))
        (.fanout (gids.map (fun g => (g, .waitingProjects))))
  | groupsFail : Step .waitGroups [.complete .groups []] .failed
  | projectsOk (pre post : List (Nat × GSt)) (g : Nat) (pids : List Nat) :
      Step (.fanout (pre ++ (g, .waitingProjects) :: post))
        (.complete (.groupProjects g) pids :: pids.map (fun p => .issue (.projectCommits p)))
        (.fanout (pre ++ (g, .fetchingCommits pids) :: post))
  | projectsFail (pre post : List (Nat × GSt)) (g : Nat) :
      Step (.fanout (pre ++ (g, .waitingProjects) :: post))
        [.complete (.groupProjects g) []]
        (.fanout (pre ++ (g, .fetchingCommits []) :: post))
  | commitDone (pre post : List (Nat × GSt)) (g : Nat) (pids : List Nat) (p : Nat) :
      p ∈ pids →
      Step (.fanout (pre ++ (g, .fetchingCommits pids) :: post))
        [.complete (.projectCommits p) []]
        (.fanout (pre ++ (g, .fetchingCommits (pids.erase p)) :: post))

/-- An execution: a sequence of steps concatenating their emissions. -/
inductive Run : PipeState → List Ev → PipeState → Prop where
  | refl (s : PipeState) : Run s [] s
  | step {s₁ s₂ s₃ : PipeState} {evs tr : List Ev} :
      Step s₁ evs s₂ → Run s₂ tr s₃ → Run s₁ (evs ++ tr) s₃

/-- Any issue of a projects fetch for group `g` is strictly preceded by the
completion of the groups fetch, whose returned list contains `g`. -/
def groupsBeforeProjects (tr : List Ev) : Prop :=
  ∀ (i g : Nat), tr[i]? = some (Ev.issue (Call.groupProjects g)) →
    ∃ j, j < i ∧ ∃ gids, tr[j]? = some (Ev.complete Call.groups gids) ∧ g ∈ gids

/-- Any issue of a commit fetch for project `p` is strictly preceded by the
completion of the projects fetch of a group whose returned list contains
`p`. -/
def projectsBeforeCommits (tr : List Ev) : Prop :=
  ∀ (i p : Nat), tr[i]? = some (Ev.issue (Call.projectCommits p)) →
    ∃ j, j < i ∧ ∃ g pids,
      tr[j]? = some (Ev.complete (Call.groupProjects g) pids) ∧ p ∈ pids

theorem groupsBeforeProjects_append (evs tr : List Ev)
    (h1 : ∀ (i g : Nat), evs[i]? = some (Ev.issue (Call.groupProjects g)) →
      ∃ j, j < i ∧ ∃ gids, evs[j]? = some (Ev.complete Call.groups gids) ∧ g ∈ gids)
    (h2 : groupsBeforeProjects tr) : groupsBeforeProjects (evs ++ tr) := by
  unfold groupsBeforeProjects
  intro i g hi
  by_cases hlt : i < evs.length
  · rw [List.getElem?_append_left hlt] at hi
    rcases h1 i g hi with ⟨j, hj, gids, hjv, hmem⟩
    exact ⟨j, hj, gids,
      by rw [List.getElem?_append_left (Nat.lt_trans hj hlt)]; exact hjv, hmem⟩
  · push_neg at hlt
    rw [List.getElem?_append_right hlt] at hi
    rcases h2 (i - evs.length) g hi with ⟨j, hj, gids, hjv, hmem⟩
    refine ⟨evs.length + j, by omega, gids, ?_, hmem⟩
    rw [List.getElem?_append_right (by omega),
      show evs.length + j - evs.length = j by omega]
    exact hjv

theorem projectsBeforeCommits_append (evs tr : List Ev)
    (h1 : ∀ (i p : Nat), evs[i]? = some (Ev.issue (Call.projectCommits p)) →
      ∃ j, j < i ∧ ∃ g pids,
        evs[j]? = some (Ev.complete (Call.groupProjects g) pids) ∧ p ∈ pids)
    (h2 : projectsBeforeCommits tr) : projectsBeforeCommits (evs ++ tr) := by
  unfold projectsBeforeCommits
  intro i p hi
  by_cases hlt : i < evs.length
  · rw [List.getElem?_append_left hlt] at hi
    rcases h1 i p hi with ⟨j, hj, g, pids, hjv, hmem⟩
    exact ⟨j, hj, g, pids,
      by rw [List.getElem?_append_left (Nat.lt_trans hj hlt)]; exact hjv, hmem⟩
  · push_neg at hlt
    rw [List.getElem?_append_right hlt] at hi
    rcases h2 (i - evs.length) p hi with ⟨j, hj, g, pids, hjv, hmem⟩
    refine ⟨evs.length + j, by omega, g, pids, ?_, hmem⟩
    rw [List.getElem?_append_right (by omega),
      show evs.length + j - evs.length = j by omega]
    exact hjv

theorem run_groupsBeforeProjects {s s' : PipeState} {tr : List Ev}
    (h : Run s tr s') : groupsBeforeProjects tr := by
  induction h with
  | refl s =>
    unfold groupsBeforeProjects
    intro i g hi
    simp at hi
  | step hstep hrun ih =>
    refine groupsBeforeProjects_append _ _ ?_ ih
    cases hstep with
    | issueEvents =>
      intro i g hi
      cases i with
      | zero => simp at hi
      | succ k => simp at hi
    | eventsOk =>
      intro i g hi
      match i with
      | 0 => simp at hi
      | 1 => simp at hi
      | k + 2 => simp at hi
    | eventsFail =>
      intro i g hi
      cases i with
      | zero => simp at hi
      | succ k => simp at hi
    | groupsOk gids =>
      intro i g hi
      cases i with
      | zero => simp at hi
      | succ k =>
        refine ⟨0, Nat.succ_pos k, gids, List.getElem?_cons_zero, ?_⟩
        rw [List.getElem?_cons_succ, List.getElem?_map] at hi
        cases hgk : gids[k]? with
        | none => rw [hgk] at hi; simp at hi
        | some g0 =>
          rw [hgk] at hi
          simp only [Option.map_some'] at hi
          cases hi
          exact List.getElem?_mem hgk
    | groupsFail =>
      intro i g hi
      cases i with
      | zero => simp at hi
      | succ k => simp at hi
    | projectsOk pre post g0 pids =>
      intro i g hi
      cases i with
      | zero => simp at hi
      | succ k =>
        rw [List.getElem?_cons_succ, List.getElem?_map] at hi
        cases hpk : pids[k]? with
        | none => rw [hpk] at hi; simp at hi
        | some p0 => rw [hpk] at hi; simp at hi
    | projectsFail pre post g0 =>
      intro i g hi
      cases i with
      | zero => simp at hi
      | succ k => simp at hi
    | commitDone pre post g0 pids p0 hp =>
      intro i g hi
      cases i with
      | zero => simp at hi
      | succ k => simp at hi

theorem run_projectsBeforeCommits {s s' : PipeState} {tr : List Ev}
    (h : Run s tr s') : projectsBeforeCommits tr := by
  induction h with
  | refl s =>
    unfold projectsBeforeCommits
    intro i p hi
    simp at hi
  | step hstep hrun ih =>
    refine projectsBeforeCommits_append _ _ ?_ ih
    cases hstep with
    | issueEvents =>
      intro i p hi
      cases i with
      | zero => simp at hi
      | succ k => simp at hi
    | eventsOk =>
      intro i p hi
      match i with
      | 0 => simp at hi
      | 1 => simp at hi
      | k + 2 => simp at hi
    | eventsFail =>
      intro i p hi
      cases i with
      | zero => simp at hi
      | succ k => simp at hi
    | groupsOk gids =>
      intro i p hi
      cases i with
      | zero => simp at hi
      | succ k =>
        rw [List.getElem?_cons_succ, List.getElem?_map] at hi
        cases hgk : gids[k]? with
        | none => rw [hgk] at hi; simp at hi
        | some g0 => rw [hgk] at hi; simp at hi
    | groupsFail =>
      intro i p hi
      cases i with
      | zero => simp at hi
      | succ k => simp at hi
    | projectsOk pre post g0 pids =>
      intro i p hi
      cases i with
      | zero => simp at hi
      | succ k =>
        refine ⟨0, Nat.succ_pos k, g0, pids, List.getElem?_cons_zero, ?_⟩
        rw [List.getElem?_cons_succ, List.getElem?_map] at hi
        cases hpk : pids[k]? with
        | none => rw [hpk] at hi; simp at hi
        | some p0 =>
          rw [hpk] at hi
          simp only [Option.map_some'] at hi
          cases hi
          exact List.getElem?_mem hpk
    | projectsFail pre post g0 =>
      intro i p hi
      cases i with
      | zero => simp at hi
      | succ k => simp at hi
    | commitDone pre post g0 pids p0 hp =>
      intro i p hi
      cases i with
      | zero => simp at hi
      | succ k => simp at hi

/-- C7: in every execution of the aggregation pipeline, the groups fetch
completes before any per-group projects fetch is issued (and the issued
group is one of the returned groups), and each group's projects fetch
completes before any commit fetch for that group's projects is issued: a
commit fetch for a project is never issued before a projects list containing
that project is known. -/
theorem c7_pipeline_fetch_ordering (tr : List Ev) (s : PipeState)
    (h : Run PipeState.start tr s) :
    groupsBeforeProjects tr ∧ projectsBeforeCommits tr :=
  ⟨run_groupsBeforeProjects h, run_projectsBeforeCommits h⟩

/-- C7 witness: a concrete complete run over one group with one project
satisfies both ordering predicates. -/
theorem c7_pipeline_fetch_ordering_witness :
    groupsBeforeProjects
      [.issue .events, .complete .events [], .issue .groups,
        .complete .groups [5], .issue (.groupProjects 5),
        .complete (.groupProjects 5) [9], .issue (.projectCommits 9),
        .complete (.projectCommits 9) []]
    ∧ projectsBeforeCommits
      [.issue .events, .complete .events [], .issue .groups,
        .complete .groups [5], .issue (.groupProjects 5),
        .complete (.groupProjects 5) [9], .issue (.projectCommits 9),
        .complete (.projectCommits 9) []] :=
  c7_pipeline_fetch_ordering _ _
    (Run.step Step.issueEvents
      (Run.step Step.eventsOk
        (Run.step (Step.groupsOk [5])
          (Run.step (Step.projectsOk [] [] 5 [9])
            (Run.step (Step.commitDone [] [] 5 [9] 9 (by decide))
              (Run.refl _))))))

end WT1
